import Mathlib

/-!
Verification of the SurgeSense hospital telemetry simulator
(`synthetic_data.py`) and its query surface (`surge_predict.py`).

Shallow embedding conventions:
* Python `int` values are `ℤ`.
* Every call to `random.randint(lo, hi)` is modelled by `randint lo hi r`
  where `r : ℕ` is an oracle draw supplied as an explicit argument; the
  result is `lo + r % (hi - lo + 1)`, which ranges over exactly `[lo, hi]`.
* Timestamp strings are lists of character codes (`List ℕ`), so that the
  string-level day check `timestamp.split(" ")[0] == now.strftime("%Y-%m-%d")`
  and the `strptime` parse are modelled at the same level as the source.
* `int(x / y)` on non-negative floats is modelled by `Int.tdiv`
  (truncation towards zero, matching CPython `int()`).
* `int(total * 0.20)` and the other fixed ratios are modelled by the exact
  integer floor `(total * 20).tdiv 100`; CPython evaluates the product in
  floating point, which for these ratios can only undershoot the exact
  floor, never overshoot it, so the remainder stays non-negative.
-/

/-- Broken-down local time, as produced by `datetime.now()`:
`year-month-day hour:minute:second`. -/
structure DateTime where
  year : ℕ
  month : ℕ
  day : ℕ
  hour : ℕ
  minute : ℕ
  second : ℕ
deriving DecidableEq, Repr

/-- Field ranges guaranteed by `datetime.now()` (four-digit year, valid
calendar fields, seconds below 60). -/
def DateTime.Valid (t : DateTime) : Prop :=
  1000 ≤ t.year ∧ t.year ≤ 9999 ∧ 1 ≤ t.month ∧ t.month ≤ 12 ∧
  1 ≤ t.day ∧ t.day ≤ 31 ∧ t.hour ≤ 23 ∧ t.minute ≤ 59 ∧ t.second ≤ 59

instance (t : DateTime) : Decidable t.Valid := by
  unfold DateTime.Valid; infer_instance

/-- The local calendar date of an instant. -/
def dateOf (t : DateTime) : ℕ × ℕ × ℕ := (t.year, t.month, t.day)

/-- Two-digit zero-padded decimal rendering (character codes),
as in `strftime("%m")`, `strftime("%d")`, `strftime("%H")`, .... -/
def pad2 (n : ℕ) : List ℕ := [48 + n / 10 % 10, 48 + n % 10]

/-- Four-digit zero-padded decimal rendering (character codes),
as in `strftime("%Y")` for four-digit years. -/
def pad4 (n : ℕ) : List ℕ :=
  [48 + n / 1000 % 10, 48 + n / 100 % 10, 48 + n / 10 % 10, 48 + n % 10]

/-- Rendering of `now.strftime("%Y-%m-%d")` as a list of character codes
(45 is the dash). -/
def fmtDate (t : DateTime) : List ℕ :=
  pad4 t.year ++ [45] ++ pad2 t.month ++ [45] ++ pad2 t.day

/-- Rendering of `now.strftime("%H:%M:%S")` as a list of character codes
(58 is the colon). -/
def fmtTime (t : DateTime) : List ℕ :=
  pad2 t.hour ++ [58] ++ pad2 t.minute ++ [58] ++ pad2 t.second

/-- Rendering of `now.strftime("%Y-%m-%d %H:%M:%S")` — the timestamp written into every
snapshot (32 is the space). -/
def fmtTimestamp (t : DateTime) : List ℕ :=
  fmtDate t ++ [32] ++ fmtTime t

/-- Function `same_day` (synthetic_data.py lines 36-40): a falsy (absent or empty)
timestamp is not the same day; otherwise compare the substring before the
first space with today's `%Y-%m-%d` rendering. -/
def same_day (timestamp : Option (List ℕ)) (now : DateTime) : Bool :=
  match timestamp with
  | none => false
  | some [] => false
  | some ts => decide (ts.takeWhile (fun c => c != 32) = fmtDate now)

/-- Parse of `datetime.strptime(ts, "%Y-%m-%d %H:%M:%S")` specialised to the
fixed-width rendering the generator itself produces: 19 characters,
digits in the numeric positions, separators in the separator positions,
and the range checks `strptime` applies to each field.  Returns `none`
where CPython would raise `ValueError`. -/
def strptimeTs (ts : List ℕ) : Option DateTime :=
  match ts with
  | [y1, y2, y3, y4, s1, mo1, mo2, s2, d1, d2, sp, h1, h2, c1, mi1, mi2, c2, se1, se2] =>
    if (48 ≤ y1 ∧ y1 ≤ 57) ∧ (48 ≤ y2 ∧ y2 ≤ 57) ∧ (48 ≤ y3 ∧ y3 ≤ 57) ∧
       (48 ≤ y4 ∧ y4 ≤ 57) ∧ (48 ≤ mo1 ∧ mo1 ≤ 57) ∧ (48 ≤ mo2 ∧ mo2 ≤ 57) ∧
       (48 ≤ d1 ∧ d1 ≤ 57) ∧ (48 ≤ d2 ∧ d2 ≤ 57) ∧ (48 ≤ h1 ∧ h1 ≤ 57) ∧
       (48 ≤ h2 ∧ h2 ≤ 57) ∧ (48 ≤ mi1 ∧ mi1 ≤ 57) ∧ (48 ≤ mi2 ∧ mi2 ≤ 57) ∧
       (48 ≤ se1 ∧ se1 ≤ 57) ∧ (48 ≤ se2 ∧ se2 ≤ 57) ∧
       s1 = 45 ∧ s2 = 45 ∧ sp = 32 ∧ c1 = 58 ∧ c2 = 58 then
      let y := (y1 - 48) * 1000 + (y2 - 48) * 100 + (y3 - 48) * 10 + (y4 - 48)
      let mo := (mo1 - 48) * 10 + (mo2 - 48)
      let d := (d1 - 48) * 10 + (d2 - 48)
      let h := (h1 - 48) * 10 + (h2 - 48)
      let mi := (mi1 - 48) * 10 + (mi2 - 48)
      let se := (se1 - 48) * 10 + (se2 - 48)
      if 1 ≤ mo ∧ mo ≤ 12 ∧ 1 ≤ d ∧ d ≤ 31 ∧ h ≤ 23 ∧ mi ≤ 59 ∧ se ≤ 61 then
        some ⟨y, mo, d, h, mi, se⟩
      else none
    else none
  | _ => none

/-- Days since the Unix epoch of a proleptic-Gregorian date (the calendar
`datetime` subtraction uses); standard civil-days computation with floor
division. -/
def daysFromCivil (y m d : ℕ) : ℤ :=
  let yi : ℤ := if m ≤ 2 then (y : ℤ) - 1 else (y : ℤ)
  let era : ℤ := Int.fdiv yi 400
  let yoe : ℤ := yi - era * 400
  let mp : ℤ := ((m : ℤ) + 9) % 12
  let doy : ℤ := (153 * mp + 2) / 5 + (d : ℤ) - 1
  let doe : ℤ := yoe * 365 + yoe / 4 - yoe / 100 + doy
  era * 146097 + doe - 719468

/-- Value of `(dt - epoch).total_seconds()` for a broken-down instant. -/
def toSeconds (t : DateTime) : ℤ :=
  daysFromCivil t.year t.month t.day * 86400 +
    ((t.hour : ℤ) * 3600 + (t.minute : ℤ) * 60 + (t.second : ℤ))

/-- Model of `random.randint(lo, hi)` driven by an oracle draw `r`; lands in
`[lo, hi]` whenever `lo ≤ hi`. -/
def randint (lo hi : ℤ) (r : ℕ) : ℤ := lo + (r : ℤ) % (hi - lo + 1)


/-- The 8 fixed OPD category names, in the insertion order of the `ratios`
dict (synthetic_data.py lines 79-88). -/
inductive Cat where
  | emergency
  | general_medicine
  | pediatrics
  | orthopedics
  | respiratory
  | cardiology
  | dermatology
  | others
deriving DecidableEq, Repr, Fintype

/-- The fixed allocation ratio of each category, times 100
(0.20, 0.30, 0.10, 0.08, 0.12, 0.08, 0.05, 0.07). -/
def ratio100 : Cat → ℤ
  | .emergency => 20
  | .general_medicine => 30
  | .pediatrics => 10
  | .orthopedics => 8
  | .respiratory => 12
  | .cardiology => 8
  | .dermatology => 5
  | .others => 7

/-- Sum of the 8 category values of an allocation. -/
def catSum (f : Cat → ℤ) : ℤ :=
  f .emergency + f .general_medicine + f .pediatrics + f .orthopedics +
    f .respiratory + f .cardiology + f .dermatology + f .others

/-- Model of `random.choice(list(allocated.keys()))` driven by an oracle draw:
an index into the 8 keys in insertion order. -/
def chooseCat (n : ℕ) : Cat :=
  match n % 8 with
  | 0 => .emergency
  | 1 => .general_medicine
  | 2 => .pediatrics
  | 3 => .orthopedics
  | 4 => .respiratory
  | 5 => .cardiology
  | 6 => .dermatology
  | _ => .others

/-- Function `generate_opd_categories` (synthetic_data.py lines 67-95).
`g` supplies the per-category `randint(0, max(1, int(total * 0.01)))`
draws of the continuing branch; `choice` the `random.choice` draw of the
fresh branch. -/
def generate_opd_categories (total : ℤ) (prev : Option (Cat → ℤ))
    (continue_day : Bool) (g : Cat → ℕ) (choice : ℕ) : Cat → ℤ :=
  match continue_day, prev with
  | true, some p => fun key => p key + randint 0 (max 1 (total.tdiv 100)) (g key)
  | _, _ =>
    let allocated : Cat → ℤ := fun key => (total * ratio100 key).tdiv 100
    let diff := total - catSum allocated
    if 0 < diff then
      fun key => if key = chooseCat choice then allocated key + diff else allocated key
    else
      allocated

/-- Function `adjust_stock` (synthetic_data.py lines 43-55): draw a usage amount,
subtract it, refill when below the threshold, clamp at zero. -/
def adjust_stock (current use_min use_max threshold refill : ℤ) (r : ℕ) : ℤ :=
  let used := randint use_min use_max r
  let current2 := current - used
  let current3 := if current2 < threshold then current2 + refill else current2
  max 0 current3

/-- Function `compute_rolling` (synthetic_data.py lines 58-64): append the new OPD
total, truncate to the most recent 7 entries, return the sum together with
the updated history. -/
def compute_rolling (hist : List ℤ) (new : ℤ) : ℤ × List ℤ :=
  let h1 := hist ++ [new]
  let h2 := if 7 < h1.length then h1.drop (h1.length - 7) else h1
  (h2.sum, h2)

/-- The five test-kit names. -/
inductive TestKit where
  | rt_pcr
  | flu
  | dengue
  | covid
  | typhoid
deriving DecidableEq, Repr, Fintype

/-- The eight blood-bank item names (A+, A-, B+, B-, O+, O-, AB+, AB-). -/
inductive Blood where
  | aPos
  | aNeg
  | bPos
  | bNeg
  | oPos
  | oNeg
  | abPos
  | abNeg
deriving DecidableEq, Repr, Fintype

structure Ppe where
  n95 : ℤ
  gloves : ℤ
  sanitizer_liters : ℤ
deriving DecidableEq, Repr

structure Vaccine where
  flu : ℤ
  hepb : ℤ
deriving DecidableEq, Repr

/-- Record `resources_and_supplies`: per-family item → stock level maps. -/
structure Supplies where
  test_kits : TestKit → ℤ
  ppe : Ppe
  vaccine : Vaccine
  blood_bank : Blood → ℤ

/-- The fixed supply baseline used when no previous snapshot exists
(synthetic_data.py lines 185-213). -/
def defaultSupplies : Supplies where
  test_kits := fun k =>
    match k with
    | .rt_pcr => 500
    | .flu => 800
    | .dengue => 200
    | .covid => 600
    | .typhoid => 300
  ppe := ⟨1500, 4000, 100⟩
  vaccine := ⟨400, 200⟩
  blood_bank := fun b =>
    match b with
    | .aPos => 25
    | .aNeg => 6
    | .bPos => 20
    | .bNeg => 4
    | .oPos => 30
    | .oNeg => 4
    | .abPos => 12
    | .abNeg => 2

/-- The `hospital_metrics` record of a snapshot. -/
structure Metrics where
  past_7_day_opd_visits : ℤ
  opd_visits_today : ℤ
  opd_categories : Cat → ℤ
  current_bed_occupancy : ℤ
  icu_occupancy : ℤ
  emergency_intake_today : ℤ
  available_beds : ℤ
  available_icu_beds : ℤ
  triage_wait_time_minutes : ℤ
  avg_er_wait_time_minutes : ℤ
  avg_icu_wait_time_minutes : ℤ
  doctor_count_on_shift : ℤ
  nurse_count_on_shift : ℤ
  support_staff_on_shift : ℤ

/-- One persisted record: timestamp string (as character codes), metrics
and supplies. -/
structure Snapshot where
  timestamp : List ℕ
  hospital_metrics : Metrics
  resources_and_supplies : Supplies

/-- One oracle draw per `random.*` call site of a single
`generate_snapshot` cycle. -/
structure Draws where
  rate : ℕ
  freshOpd : ℕ
  catGrow : Cat → ℕ
  catChoice : ℕ
  emergInc : ℕ
  bedDelta : ℕ
  icuDelta : ℕ
  bedFresh : ℕ
  icuFresh : ℕ
  triage : ℕ
  erInc : ℕ
  icuWaitDraw : ℕ
  doctors : ℕ
  nurses : ℕ
  support : ℕ
  tkUse : TestKit → ℕ
  n95Use : ℕ
  glovesUse : ℕ
  sanitizerUse : ℕ
  fluVacUse : ℕ
  hepbUse : ℕ
  bloodUse : Blood → ℕ

/-- The continuity-independent tail of `generate_snapshot`
(synthetic_data.py lines 131, 149-182, 215-251): rolling history, derived
capacity and wait metrics, staffing, supply adjustment, and record
assembly. -/
def finish (now : DateTime) (hist : List ℤ) (d : Draws) (opd_today : ℤ)
    (opd_categories : Cat → ℤ) (emergency_today bed_occ icu_occ : ℤ)
    (sup0 : Supplies) : Snapshot × List ℤ :=
  let rolled := compute_rolling hist opd_today
  let available_beds := 100 - bed_occ
  let available_icu := max 0 (20 - icu_occ.tdiv 5)
  let wait_triage := (bed_occ * randint 10 25 d.triage).tdiv 100
  let wait_er := wait_triage + randint 10 20 d.erInc
  let wait_icu := (icu_occ * randint 5 15 d.icuWaitDraw).tdiv 100
  let dayShift := 8 ≤ now.hour ∧ now.hour ≤ 20
  let doctors := if dayShift then randint 15 22 d.doctors else randint 8 14 d.doctors
  let nurses := if dayShift then randint 35 48 d.nurses else randint 18 30 d.nurses
  let support := if dayShift then randint 20 30 d.support else randint 10 20 d.support
  let supplies : Supplies :=
    { test_kits := fun k => adjust_stock (sup0.test_kits k) 1 5 120 300 (d.tkUse k)
      ppe :=
        { n95 := adjust_stock sup0.ppe.n95 5 20 300 600 d.n95Use
          gloves := adjust_stock sup0.ppe.gloves 30 100 700 2000 d.glovesUse
          sanitizer_liters := adjust_stock sup0.ppe.sanitizer_liters 1 5 20 50 d.sanitizerUse }
      vaccine :=
        { flu := adjust_stock sup0.vaccine.flu 1 6 100 200 d.fluVacUse
          hepb := adjust_stock sup0.vaccine.hepb 0 5 40 120 d.hepbUse }
      blood_bank := fun b => max 0 (sup0.blood_bank b - randint 0 1 (d.bloodUse b)) }
  (⟨fmtTimestamp now,
    { past_7_day_opd_visits := rolled.1
      opd_visits_today := opd_today
      opd_categories := opd_categories
      current_bed_occupancy := bed_occ
      icu_occupancy := icu_occ
      emergency_intake_today := emergency_today
      available_beds := available_beds
      available_icu_beds := available_icu
      triage_wait_time_minutes := wait_triage
      avg_er_wait_time_minutes := wait_er
      avg_icu_wait_time_minutes := wait_icu
      doctor_count_on_shift := doctors
      nurse_count_on_shift := nurses
      support_staff_on_shift := support },
    supplies⟩, rolled.2)

/-- The continuing-day branch body of `generate_snapshot`
(synthetic_data.py lines 109-126, 134-143), given the parsed previous
timestamp. -/
def continueBody (le : Snapshot) (last_time : DateTime) (now : DateTime)
    (hist : List ℤ) (d : Draws) (sup0 : Supplies) : Snapshot × List ℤ :=
  let minutes_passed : ℤ := max 1 ((toSeconds now - toSeconds last_time).tdiv 60)
  let patients_per_min : ℤ :=
    if 8 ≤ now.hour ∧ now.hour ≤ 18 then randint 4 12 d.rate
    else if 18 ≤ now.hour ∧ now.hour ≤ 22 then randint 2 6 d.rate
    else randint 0 2 d.rate
  let opd_today := le.hospital_metrics.opd_visits_today + patients_per_min * minutes_passed
  let opd_categories :=
    generate_opd_categories opd_today (some le.hospital_metrics.opd_categories)
      true d.catGrow d.catChoice
  let emergency_today := le.hospital_metrics.emergency_intake_today + randint 0 4 d.emergInc
  let bed_occ :=
    max 50 (min 100 (le.hospital_metrics.current_bed_occupancy + randint (-2) 2 d.bedDelta))
  let icu_occ :=
    max 60 (min 100 (le.hospital_metrics.icu_occupancy + randint (-2) 2 d.icuDelta))
  finish now hist d opd_today opd_categories emergency_today bed_occ icu_occ sup0

/-- The day-rollover / cold-start branch body of `generate_snapshot`
(synthetic_data.py lines 127-129, 144-147). -/
def freshBody (now : DateTime) (hist : List ℤ) (d : Draws) (sup0 : Supplies) :
    Snapshot × List ℤ :=
  let opd_today := randint 5 30 d.freshOpd
  let opd_categories := generate_opd_categories opd_today none false d.catGrow d.catChoice
  let emergency_today := opd_categories Cat.emergency
  let bed_occ := randint 60 90 d.bedFresh
  let icu_occ := randint 70 95 d.icuFresh
  finish now hist d opd_today opd_categories emergency_today bed_occ icu_occ sup0

/-- Function `generate_snapshot` (synthetic_data.py lines 98-251).  Returns `none`
exactly where CPython would raise (the `strptime` of a malformed previous
timestamp on a continuing day).  The rolling history is the explicit
state that the source keeps in the module-global `history_opd`. -/
def generate_snapshot (last_entry : Option Snapshot) (now : DateTime)
    (hist : List ℤ) (d : Draws) : Option (Snapshot × List ℤ) :=
  match last_entry with
  | none => some (freshBody now hist d defaultSupplies)
  | some le =>
    let sup0 := le.resources_and_supplies
    if same_day (some le.timestamp) now then
      (strptimeTs le.timestamp).map (fun last_time => continueBody le last_time now hist d sup0)
    else
      some (freshBody now hist d sup0)

/-- A sequence of generator calls, each receiving the previous call's
snapshot and rolling history (the scheduler loop of `run`, with the store
round-trip elided).  Produces the snapshot and post-call history of every
cycle. -/
def runChain (prev : Option Snapshot) (hist : List ℤ) :
    List (DateTime × Draws) → Option (List (Snapshot × List ℤ))
  | [] => some []
  | (t, d) :: rest =>
    match generate_snapshot prev t hist d with
    | none => none
    | some (s, h2) => (runChain (some s) h2 rest).map (fun tail => (s, h2) :: tail)

/-- The dataset file as the query layer sees it: `none` when the file does
not exist, `some records` otherwise (an unreadable file is out of scope
here; `read_latest_record` lets `json.load` errors escape unchanged, and
the tool maps them to an error result like every other exception). -/
def read_latest_record (fs : Option (List Snapshot)) : Except String Snapshot :=
  match fs with
  | none => Except.error "Dataset file missing."
  | some [] => Except.error "Dataset is empty."
  | some (x :: xs) => Except.ok ((x :: xs).getLast (List.cons_ne_nil x xs))

/-- The discriminated result every tool `_run` returns as JSON:
`status: success` with data, or `status: error` with a message. -/
inductive RunResult where
  | success (hospital_metrics : Metrics) (resources_and_supplies : Supplies)
  | error (message : String)

/-- Method `GetHospitalStateTool._run` (surge_predict.py lines 410-448): the
tool input is parsed only inside a swallowed `try`, so it is irrelevant;
`read_latest_record` failures (missing file, empty dataset) are caught and
converted to an error result; otherwise the latest record's metrics and
supplies are returned as a success result. -/
def getHospitalStateRun (fs : Option (List Snapshot)) : RunResult :=
  match read_latest_record fs with
  | Except.ok latest =>
    RunResult.success latest.hospital_metrics latest.resources_and_supplies
  | Except.error e => RunResult.error e

/-- All numeric fields of `hospital_metrics` are non-negative. -/
def NonnegMetrics (m : Metrics) : Prop :=
  0 ≤ m.past_7_day_opd_visits ∧ 0 ≤ m.opd_visits_today ∧
  (∀ c, 0 ≤ m.opd_categories c) ∧ 0 ≤ m.current_bed_occupancy ∧
  0 ≤ m.icu_occupancy ∧ 0 ≤ m.emergency_intake_today ∧ 0 ≤ m.available_beds ∧
  0 ≤ m.available_icu_beds ∧ 0 ≤ m.triage_wait_time_minutes ∧
  0 ≤ m.avg_er_wait_time_minutes ∧ 0 ≤ m.avg_icu_wait_time_minutes ∧
  0 ≤ m.doctor_count_on_shift ∧ 0 ≤ m.nurse_count_on_shift ∧
  0 ≤ m.support_staff_on_shift

/-- All stock levels of `resources_and_supplies` are non-negative. -/
def NonnegSupplies (s : Supplies) : Prop :=
  (∀ k, 0 ≤ s.test_kits k) ∧ 0 ≤ s.ppe.n95 ∧ 0 ≤ s.ppe.gloves ∧
  0 ≤ s.ppe.sanitizer_liters ∧ 0 ≤ s.vaccine.flu ∧ 0 ≤ s.vaccine.hepb ∧
  (∀ b, 0 ≤ s.blood_bank b)

/-- A well-formed snapshot: every numeric field is non-negative. -/
def WellFormed (s : Snapshot) : Prop :=
  NonnegMetrics s.hospital_metrics ∧ NonnegSupplies s.resources_and_supplies

instance (m : Metrics) : Decidable (NonnegMetrics m) := by
  unfold NonnegMetrics; infer_instance

instance (s : Supplies) : Decidable (NonnegSupplies s) := by
  unfold NonnegSupplies; infer_instance

instance (s : Snapshot) : Decidable (WellFormed s) := by
  unfold WellFormed; infer_instance

/-- The suffix of at most 7 most recent entries, the shape of the rolling
history after truncation. -/
def lastSeven (l : List ℤ) : List ℤ := l.drop (l.length - 7)

/-- An all-zero metrics record (used to build concrete snapshots). -/
def zeroMetrics : Metrics where
  past_7_day_opd_visits := 0
  opd_visits_today := 0
  opd_categories := fun _ => 0
  current_bed_occupancy := 0
  icu_occupancy := 0
  emergency_intake_today := 0
  available_beds := 0
  available_icu_beds := 0
  triage_wait_time_minutes := 0
  avg_er_wait_time_minutes := 0
  avg_icu_wait_time_minutes := 0
  doctor_count_on_shift := 0
  nurse_count_on_shift := 0
  support_staff_on_shift := 0

/-- A concrete snapshot timestamped at `t` (zero metrics, baseline
supplies). -/
def snapshotAt (t : DateTime) : Snapshot :=
  ⟨fmtTimestamp t, zeroMetrics, defaultSupplies⟩

/-- A placeholder snapshot used only as the default of `Option.getD`. -/
def dummySnapshot : Snapshot := ⟨[], zeroMetrics, defaultSupplies⟩

/-- An all-zero draw oracle for concrete runs. -/
def zeroDraws : Draws where
  rate := 0
  freshOpd := 0
  catGrow := fun _ => 0
  catChoice := 0
  emergInc := 0
  bedDelta := 0
  icuDelta := 0
  bedFresh := 0
  icuFresh := 0
  triage := 0
  erInc := 0
  icuWaitDraw := 0
  doctors := 0
  nurses := 0
  support := 0
  tkUse := fun _ => 0
  n95Use := 0
  glovesUse := 0
  sanitizerUse := 0
  fluVacUse := 0
  hepbUse := 0
  bloodUse := fun _ => 0

/-- Instant 2025-03-05 09:00:00, a concrete morning time. -/
def tMar5a : DateTime := ⟨2025, 3, 5, 9, 0, 0⟩

/-- Instant 2025-03-05 09:30:00, half an hour later on the same day. -/
def tMar5b : DateTime := ⟨2025, 3, 5, 9, 30, 0⟩

/-- Instant 2025-03-06 10:00:00, on the following day. -/
def tMar6 : DateTime := ⟨2025, 3, 6, 10, 0, 0⟩

/-- A concrete two-call same-day schedule. -/
def twoCallSchedule : List (DateTime × Draws) :=
  [(tMar5a, zeroDraws), (tMar5b, zeroDraws)]

/-- Output of the concrete two-call run used by the monotonicity witness. -/
def chainOutMono : List (Snapshot × List ℤ) :=
  (runChain none [] twoCallSchedule).getD []

/-- Output of the concrete two-call run used by the rolling-history
witness. -/
def chainOutRolling : List (Snapshot × List ℤ) :=
  (runChain none [] twoCallSchedule).getD []

/-- Output of a concrete cold-start generator call (non-negativity
witness). -/
def coldOutNonneg : Snapshot × List ℤ :=
  (generate_snapshot none tMar5a [] zeroDraws).getD (dummySnapshot, [])

/-- Output of a concrete cold-start generator call (derived-capacity
witness). -/
def coldOutCapacity : Snapshot × List ℤ :=
  (generate_snapshot none tMar5a [] zeroDraws).getD (dummySnapshot, [])

/-- Output of a concrete cold-start generator call (timestamp-format
witness). -/
def coldOutStamp : Snapshot × List ℤ :=
  (generate_snapshot none tMar5a [] zeroDraws).getD (dummySnapshot, [])


theorem randint_ge (lo hi : ℤ) (r : ℕ) (h : lo ≤ hi) : lo ≤ randint lo hi r := by
  unfold randint
  have h0 : (hi - lo + 1) ≠ 0 := by omega
  have := Int.emod_nonneg (r : ℤ) h0
  omega

theorem randint_le (lo hi : ℤ) (r : ℕ) (h : lo ≤ hi) : randint lo hi r ≤ hi := by
  unfold randint
  have h0 : (0 : ℤ) < hi - lo + 1 := by omega
  have := Int.emod_lt_of_pos (r : ℤ) h0
  omega

theorem takeWhile_append_stop (p : ℕ → Bool) (c : ℕ) (hc : p c = false) :
    ∀ (l r : List ℕ), (∀ a ∈ l, p a = true) → List.takeWhile p (l ++ c :: r) = l := by
  intro l
  induction l with
  | nil => intro r _; simp [List.takeWhile, hc]
  | cons a l ih =>
    intro r hl
    have ha : p a = true := hl a (by simp)
    simp only [List.cons_append, List.takeWhile_cons, ha, if_true]
    simp only [ih r (fun b hb => hl b (by simp [hb]))]

theorem fmtDate_no_space (t : DateTime) : ∀ a ∈ fmtDate t, (a != 32) = true := by
  intro a ha
  simp only [fmtDate, pad4, pad2, List.append_assoc, List.cons_append, List.nil_append,
    List.mem_cons, List.not_mem_nil, or_false] at ha
  simp only [bne_iff_ne, ne_eq]
  rcases ha with h | h | h | h | h | h | h | h | h | h <;> omega

theorem takeWhile_fmtTimestamp (t : DateTime) :
    List.takeWhile (fun c => c != 32) (fmtTimestamp t) = fmtDate t := by
  have h : fmtTimestamp t = fmtDate t ++ 32 :: fmtTime t := by
    simp [fmtTimestamp]
  rw [h]
  exact takeWhile_append_stop (fun c => c != 32) 32 (by decide) (fmtDate t) (fmtTime t)
    (fmtDate_no_space t)

theorem fmtDate_inj (t u : DateTime) (ht : t.Valid) (hu : u.Valid)
    (h : fmtDate t = fmtDate u) : dateOf t = dateOf u := by
  obtain ⟨hy1, hy2, hm1, hm2, hd1, hd2, _⟩ := ht
  obtain ⟨hy1u, hy2u, hm1u, hm2u, hd1u, hd2u, _⟩ := hu
  simp only [fmtDate, pad4, pad2, List.append_assoc, List.cons_append, List.nil_append,
    List.cons.injEq, and_true] at h
  simp only [dateOf, Prod.mk.injEq]
  omega

theorem strptime_fmt (t : DateTime) (hv : t.Valid) : strptimeTs (fmtTimestamp t) = some t := by
  obtain ⟨y, m, d, hh, mi, s⟩ := t
  unfold DateTime.Valid at hv
  dsimp only at hv
  obtain ⟨hy1, hy2, hm1, hm2, hd1, hd2, hh1, hmi1, hs1⟩ := hv
  simp only [fmtTimestamp, fmtDate, fmtTime, pad4, pad2, List.append_assoc,
    List.cons_append, List.nil_append]
  simp only [strptimeTs]
  split
  · split
    · simp only [Option.some.injEq, DateTime.mk.injEq]
      omega
    · exfalso; omega
  · rename_i hcond
    simp only [and_true, true_and] at hcond
    exact absurd (by omega) hcond

theorem fmtDate_congr (t u : DateTime) (h : dateOf t = dateOf u) :
    fmtDate t = fmtDate u := by
  simp only [dateOf, Prod.mk.injEq] at h
  simp [fmtDate, pad4, pad2, h.1, h.2.1, h.2.2]

theorem fmtTimestamp_ne_nil (t : DateTime) : fmtTimestamp t ≠ [] := by
  simp [fmtTimestamp, fmtDate, pad4]

theorem same_day_fmt (t now : DateTime) (ht : t.Valid) (hn : now.Valid) :
    (same_day (some (fmtTimestamp t)) now = true) ↔ dateOf t = dateOf now := by
  obtain ⟨c, l, hcl⟩ : ∃ c l, fmtTimestamp t = c :: l := by
    cases h : fmtTimestamp t with
    | nil => exact absurd h (fmtTimestamp_ne_nil t)
    | cons c l => exact ⟨c, l, rfl⟩
  have hred : same_day (some (fmtTimestamp t)) now
      = decide (List.takeWhile (fun x => x != 32) (fmtTimestamp t) = fmtDate now) := by
    rw [hcl]
    rfl
  rw [hred, decide_eq_true_eq, takeWhile_fmtTimestamp]
  exact ⟨fun h => fmtDate_inj t now ht hn h, fun h => fmtDate_congr t now h⟩

theorem finish_fst_timestamp (now : DateTime) (hist : List ℤ) (d : Draws)
    (opd : ℤ) (cats : Cat → ℤ) (em bed icu : ℤ) (sup0 : Supplies) :
    (finish now hist d opd cats em bed icu sup0).1.timestamp = fmtTimestamp now := rfl

theorem finish_metrics (now : DateTime) (hist : List ℤ) (d : Draws)
    (opd : ℤ) (cats : Cat → ℤ) (em bed icu : ℤ) (sup0 : Supplies) :
    (finish now hist d opd cats em bed icu sup0).1.hospital_metrics =
    { past_7_day_opd_visits := (compute_rolling hist opd).1
      opd_visits_today := opd
      opd_categories := cats
      current_bed_occupancy := bed
      icu_occupancy := icu
      emergency_intake_today := em
      available_beds := 100 - bed
      available_icu_beds := max 0 (20 - icu.tdiv 5)
      triage_wait_time_minutes := (bed * randint 10 25 d.triage).tdiv 100
      avg_er_wait_time_minutes :=
        (bed * randint 10 25 d.triage).tdiv 100 + randint 10 20 d.erInc
      avg_icu_wait_time_minutes := (icu * randint 5 15 d.icuWaitDraw).tdiv 100
      doctor_count_on_shift :=
        if 8 ≤ now.hour ∧ now.hour ≤ 20 then randint 15 22 d.doctors else randint 8 14 d.doctors
      nurse_count_on_shift :=
        if 8 ≤ now.hour ∧ now.hour ≤ 20 then randint 35 48 d.nurses else randint 18 30 d.nurses
      support_staff_on_shift :=
        if 8 ≤ now.hour ∧ now.hour ≤ 20 then randint 20 30 d.support
        else randint 10 20 d.support } := rfl

theorem finish_supplies (now : DateTime) (hist : List ℤ) (d : Draws)
    (opd : ℤ) (cats : Cat → ℤ) (em bed icu : ℤ) (sup0 : Supplies) :
    (finish now hist d opd cats em bed icu sup0).1.resources_and_supplies =
    { test_kits := fun k => adjust_stock (sup0.test_kits k) 1 5 120 300 (d.tkUse k)
      ppe :=
        { n95 := adjust_stock sup0.ppe.n95 5 20 300 600 d.n95Use
          gloves := adjust_stock sup0.ppe.gloves 30 100 700 2000 d.glovesUse
          sanitizer_liters := adjust_stock sup0.ppe.sanitizer_liters 1 5 20 50 d.sanitizerUse }
      vaccine :=
        { flu := adjust_stock sup0.vaccine.flu 1 6 100 200 d.fluVacUse
          hepb := adjust_stock sup0.vaccine.hepb 0 5 40 120 d.hepbUse }
      blood_bank := fun b => max 0 (sup0.blood_bank b - randint 0 1 (d.bloodUse b)) } := rfl

theorem finish_snd (now : DateTime) (hist : List ℤ) (d : Draws)
    (opd : ℤ) (cats : Cat → ℤ) (em bed icu : ℤ) (sup0 : Supplies) :
    (finish now hist d opd cats em bed icu sup0).2 = (compute_rolling hist opd).2 := rfl

/-- The fresh branch is `finish` applied to the freshly drawn values. -/
theorem freshBody_eq (now : DateTime) (hist : List ℤ) (d : Draws) (sup0 : Supplies) :
    freshBody now hist d sup0 =
    finish now hist d (randint 5 30 d.freshOpd)
      (generate_opd_categories (randint 5 30 d.freshOpd) none false d.catGrow d.catChoice)
      (generate_opd_categories (randint 5 30 d.freshOpd) none false d.catGrow d.catChoice
        Cat.emergency)
      (randint 60 90 d.bedFresh) (randint 70 95 d.icuFresh) sup0 := rfl

/-- The continuing branch is `finish` applied to the rolled-forward values. -/
theorem continueBody_eq (le : Snapshot) (last_time now : DateTime) (hist : List ℤ)
    (d : Draws) (sup0 : Supplies) :
    continueBody le last_time now hist d sup0 =
    finish now hist d
      (le.hospital_metrics.opd_visits_today +
        (if 8 ≤ now.hour ∧ now.hour ≤ 18 then randint 4 12 d.rate
         else if 18 ≤ now.hour ∧ now.hour ≤ 22 then randint 2 6 d.rate
         else randint 0 2 d.rate) *
          max 1 ((toSeconds now - toSeconds last_time).tdiv 60))
      (generate_opd_categories
        (le.hospital_metrics.opd_visits_today +
          (if 8 ≤ now.hour ∧ now.hour ≤ 18 then randint 4 12 d.rate
           else if 18 ≤ now.hour ∧ now.hour ≤ 22 then randint 2 6 d.rate
           else randint 0 2 d.rate) *
            max 1 ((toSeconds now - toSeconds last_time).tdiv 60))
        (some le.hospital_metrics.opd_categories) true d.catGrow d.catChoice)
      (le.hospital_metrics.emergency_intake_today + randint 0 4 d.emergInc)
      (max 50 (min 100 (le.hospital_metrics.current_bed_occupancy + randint (-2) 2 d.bedDelta)))
      (max 60 (min 100 (le.hospital_metrics.icu_occupancy + randint (-2) 2 d.icuDelta)))
      sup0 := rfl

theorem generate_none (now : DateTime) (hist : List ℤ) (d : Draws) :
    generate_snapshot none now hist d = some (freshBody now hist d defaultSupplies) := rfl

theorem generate_some_not_same (le : Snapshot) (now : DateTime) (hist : List ℤ) (d : Draws)
    (h : same_day (some le.timestamp) now = false) :
    generate_snapshot (some le) now hist d =
      some (freshBody now hist d le.resources_and_supplies) := by
  simp [generate_snapshot, h]

theorem generate_some_same (le : Snapshot) (lt now : DateTime) (hist : List ℤ) (d : Draws)
    (hsd : same_day (some le.timestamp) now = true)
    (hp : strptimeTs le.timestamp = some lt) :
    generate_snapshot (some le) now hist d =
      some (continueBody le lt now hist d le.resources_and_supplies) := by
  simp [generate_snapshot, hsd, hp]

/-- Every successful generator call is a `finish` of some cycle values. -/
theorem generate_shape (last_entry : Option Snapshot) (now : DateTime) (hist : List ℤ)
    (d : Draws) (s : Snapshot) (h2 : List ℤ)
    (hrun : generate_snapshot last_entry now hist d = some (s, h2)) :
    ∃ opd cats em bed icu sup0, (s, h2) = finish now hist d opd cats em bed icu sup0 := by
  match last_entry with
  | none =>
    rw [generate_none, freshBody_eq] at hrun
    exact ⟨_, _, _, _, _, _, (Option.some.inj hrun).symm⟩
  | some le =>
    by_cases hsd : same_day (some le.timestamp) now = true
    · cases hp : strptimeTs le.timestamp with
      | none =>
        rw [show generate_snapshot (some le) now hist d = none by
          simp [generate_snapshot, hsd, hp]] at hrun
        exact absurd hrun (by simp)
      | some lt =>
        rw [generate_some_same le lt now hist d hsd hp, continueBody_eq] at hrun
        exact ⟨_, _, _, _, _, _, (Option.some.inj hrun).symm⟩
    · rw [generate_some_not_same le now hist d (by simpa using hsd), freshBody_eq] at hrun
      exact ⟨_, _, _, _, _, _, (Option.some.inj hrun).symm⟩

theorem ediv_add_ediv_le_100 (a b : ℤ) : a / 100 + b / 100 ≤ (a + b) / 100 := by
  rw [Int.le_ediv_iff_mul_le (by norm_num : (0 : ℤ) < 100)]
  have ha := Int.ediv_mul_le a (by norm_num : (100 : ℤ) ≠ 0)
  have hb := Int.ediv_mul_le b (by norm_num : (100 : ℤ) ≠ 0)
  have : (a / 100 + b / 100) * 100 = a / 100 * 100 + b / 100 * 100 := by ring
  omega

theorem catSum_base_le (total : ℤ) (h : 0 ≤ total) :
    catSum (fun key => (total * ratio100 key).tdiv 100) ≤ total := by
  have conv : ∀ k : ℤ, 0 ≤ k → (total * k).tdiv 100 = total * k / 100 := fun k hk =>
    Int.tdiv_eq_ediv (mul_nonneg h hk) (by norm_num)
  have e2 : total * 20 / 100 + total * 30 / 100 ≤ (total * 20 + total * 30) / 100 :=
    ediv_add_ediv_le_100 _ _
  have e3 : (total * 20 + total * 30) / 100 + total * 10 / 100 ≤
      (total * 20 + total * 30 + total * 10) / 100 := ediv_add_ediv_le_100 _ _
  have e4 : (total * 20 + total * 30 + total * 10) / 100 + total * 8 / 100 ≤
      (total * 20 + total * 30 + total * 10 + total * 8) / 100 := ediv_add_ediv_le_100 _ _
  have e5 : (total * 20 + total * 30 + total * 10 + total * 8) / 100 + total * 12 / 100 ≤
      (total * 20 + total * 30 + total * 10 + total * 8 + total * 12) / 100 :=
    ediv_add_ediv_le_100 _ _
  have e6 : (total * 20 + total * 30 + total * 10 + total * 8 + total * 12) / 100 +
        total * 8 / 100 ≤
      (total * 20 + total * 30 + total * 10 + total * 8 + total * 12 + total * 8) / 100 :=
    ediv_add_ediv_le_100 _ _
  have e7 : (total * 20 + total * 30 + total * 10 + total * 8 + total * 12 + total * 8) / 100 +
        total * 5 / 100 ≤
      (total * 20 + total * 30 + total * 10 + total * 8 + total * 12 + total * 8 +
        total * 5) / 100 := ediv_add_ediv_le_100 _ _
  have e8 : (total * 20 + total * 30 + total * 10 + total * 8 + total * 12 + total * 8 +
        total * 5) / 100 + total * 7 / 100 ≤
      (total * 20 + total * 30 + total * 10 + total * 8 + total * 12 + total * 8 +
        total * 5 + total * 7) / 100 := ediv_add_ediv_le_100 _ _
  have hall : total * 20 + total * 30 + total * 10 + total * 8 + total * 12 + total * 8 +
      total * 5 + total * 7 = total * 100 := by ring
  have hcancel : total * 100 / 100 = total := Int.mul_ediv_cancel total (by norm_num)
  simp only [catSum, ratio100]
  rw [conv 20 (by norm_num), conv 30 (by norm_num), conv 10 (by norm_num),
    conv 8 (by norm_num), conv 12 (by norm_num), conv 5 (by norm_num), conv 7 (by norm_num)]
  rw [hall, hcancel] at e8
  omega

/-- C4: on a non-continuing cycle, the fresh category allocation
(ratios 20/30/10/8/12/8/5/7 percent, integer-truncated) sums exactly to
the total, the integer-rounding remainder going to the one randomly
chosen category, for every non-negative total. -/
theorem c4_fresh_allocation_sums (total : ℤ) (g : Cat → ℕ) (choice : ℕ) (h : 0 ≤ total) :
    catSum (generate_opd_categories total none false g choice) = total ∧
    ∃ c0, ∀ c, generate_opd_categories total none false g choice c =
      (total * ratio100 c).tdiv 100 +
        (if c = c0 then total - catSum (fun key => (total * ratio100 key).tdiv 100) else 0) := by
  have hb := catSum_base_le total h
  simp only [generate_opd_categories]
  split
  · constructor
    · cases hc : chooseCat choice <;>
        simp only [catSum, hc, if_pos, if_neg, reduceCtorEq, ite_true, ite_false] <;>
        simp [catSum] at hb ⊢ <;> omega
    · refine ⟨chooseCat choice, fun c => ?_⟩
      by_cases hc : c = chooseCat choice <;> simp [hc]
  · rename_i hnot
    constructor
    · omega
    · refine ⟨chooseCat choice, fun c => ?_⟩
      by_cases hc : c = chooseCat choice <;> simp [hc] <;> omega

theorem c4_fresh_allocation_sums_witness :
    catSum (generate_opd_categories 10 none false (fun _ => 0) 0) = 10 ∧
    ∃ c0, ∀ c, generate_opd_categories 10 none false (fun _ => 0) 0 c =
      ((10 : ℤ) * ratio100 c).tdiv 100 +
        (if c = c0 then 10 - catSum (fun key => ((10 : ℤ) * ratio100 key).tdiv 100) else 0) :=
  c4_fresh_allocation_sums 10 (fun _ => 0) 0 (by norm_num)

/-- C6: in every generated snapshot, `available_beds = 100 -
current_bed_occupancy` and `available_icu_beds = max(0, 20 -
icu_occupancy // 5)`, regardless of continuity and of the draws. -/
theorem c6_derived_capacity (last_entry : Option Snapshot) (now : DateTime) (hist : List ℤ)
    (d : Draws) (s : Snapshot) (h2 : List ℤ)
    (hrun : generate_snapshot last_entry now hist d = some (s, h2)) :
    s.hospital_metrics.available_beds = 100 - s.hospital_metrics.current_bed_occupancy ∧
    s.hospital_metrics.available_icu_beds =
      max 0 (20 - s.hospital_metrics.icu_occupancy.tdiv 5) := by
  obtain ⟨opd, cats, em, bed, icu, sup0, heq⟩ := generate_shape _ _ _ _ _ _ hrun
  have hs : s = (finish now hist d opd cats em bed icu sup0).1 := congrArg Prod.fst heq
  rw [hs, finish_metrics]
  exact ⟨rfl, rfl⟩

theorem c6_derived_capacity_witness :
    coldOutCapacity.1.hospital_metrics.available_beds =
      100 - coldOutCapacity.1.hospital_metrics.current_bed_occupancy ∧
    coldOutCapacity.1.hospital_metrics.available_icu_beds =
      max 0 (20 - coldOutCapacity.1.hospital_metrics.icu_occupancy.tdiv 5) :=
  c6_derived_capacity none tMar5a [] zeroDraws coldOutCapacity.1 coldOutCapacity.2 rfl

/-- C8: the stock-adjustment policy at `(current 100, use 1..5,
threshold 120, refill 300)` always lands in [196, 399]; at `current 2`
with the same parameters it is non-negative and equals
`max(0, 2 - used + 300)` for the drawn usage. -/
theorem c8_adjust_stock_policy (r : ℕ) :
    (196 ≤ adjust_stock 100 1 5 120 300 r ∧ adjust_stock 100 1 5 120 300 r ≤ 399) ∧
    (0 ≤ adjust_stock 2 1 5 120 300 r ∧
      adjust_stock 2 1 5 120 300 r = max 0 (2 - randint 1 5 r + 300)) := by
  have h1 : (1 : ℤ) ≤ randint 1 5 r := randint_ge 1 5 r (by norm_num)
  have h5 : randint 1 5 r ≤ 5 := randint_le 1 5 r (by norm_num)
  simp only [adjust_stock]
  rw [if_pos (show (100 : ℤ) - randint 1 5 r < 120 by omega),
    if_pos (show (2 : ℤ) - randint 1 5 r < 120 by omega)]
  omega

theorem same_day_false_of_ne (t now : DateTime) (ht : t.Valid) (hn : now.Valid)
    (hne : dateOf t ≠ dateOf now) : same_day (some (fmtTimestamp t)) now = false := by
  cases hsd : same_day (some (fmtTimestamp t)) now
  · rfl
  · exact absurd ((same_day_fmt t now ht hn).1 hsd) hne

/-- C2: a non-continuing call (cold start, or previous snapshot from a
different local calendar day) seeds `opd_visits_today` with the
`randint(5, 30)` draw and sets `emergency_intake_today` to the same
cycle's emergency category count. -/
theorem c2_fresh_reset (last_entry : Option Snapshot) (now : DateTime) (hist : List ℤ)
    (d : Draws) (hn : now.Valid)
    (hfresh : last_entry = none ∨ ∃ p t, last_entry = some p ∧
      p.timestamp = fmtTimestamp t ∧ t.Valid ∧ dateOf t ≠ dateOf now) :
    ∃ s h2, generate_snapshot last_entry now hist d = some (s, h2) ∧
      s.hospital_metrics.opd_visits_today = randint 5 30 d.freshOpd ∧
      5 ≤ s.hospital_metrics.opd_visits_today ∧ s.hospital_metrics.opd_visits_today ≤ 30 ∧
      s.hospital_metrics.emergency_intake_today =
        s.hospital_metrics.opd_categories Cat.emergency := by
  rcases hfresh with hnone | ⟨p, t, hp, hts, hvt, hne⟩
  · subst hnone
    exact ⟨(freshBody now hist d defaultSupplies).1, (freshBody now hist d defaultSupplies).2,
      rfl, rfl, randint_ge 5 30 d.freshOpd (by norm_num),
      randint_le 5 30 d.freshOpd (by norm_num), rfl⟩
  · subst hp
    have hsd : same_day (some p.timestamp) now = false := by
      rw [hts]; exact same_day_false_of_ne t now hvt hn hne
    exact ⟨(freshBody now hist d p.resources_and_supplies).1,
      (freshBody now hist d p.resources_and_supplies).2,
      by rw [generate_some_not_same p now hist d hsd],
      rfl, randint_ge 5 30 d.freshOpd (by norm_num),
      randint_le 5 30 d.freshOpd (by norm_num), rfl⟩

theorem c2_fresh_reset_witness :
    ∃ s h2, generate_snapshot (some (snapshotAt tMar5a)) tMar6 [] zeroDraws = some (s, h2) ∧
      s.hospital_metrics.opd_visits_today = randint 5 30 zeroDraws.freshOpd ∧
      5 ≤ s.hospital_metrics.opd_visits_today ∧ s.hospital_metrics.opd_visits_today ≤ 30 ∧
      s.hospital_metrics.emergency_intake_today =
        s.hospital_metrics.opd_categories Cat.emergency :=
  c2_fresh_reset (some (snapshotAt tMar5a)) tMar6 [] zeroDraws (by decide)
    (Or.inr ⟨snapshotAt tMar5a, tMar5a, rfl, rfl, by decide, by decide⟩)

theorem generate_continuing (p : Snapshot) (t now : DateTime) (hist : List ℤ) (d : Draws)
    (hts : p.timestamp = fmtTimestamp t) (hvt : t.Valid) (hvn : now.Valid)
    (hdate : dateOf t = dateOf now) :
    generate_snapshot (some p) now hist d =
      some (continueBody p t now hist d p.resources_and_supplies) := by
  have hsd : same_day (some p.timestamp) now = true := by
    rw [hts]; exact (same_day_fmt t now hvt hvn).2 hdate
  have hp : strptimeTs p.timestamp = some t := by rw [hts]; exact strptime_fmt t hvt
  exact generate_some_same p t now hist d hsd hp

/-- C7: on a continuing cycle the new `opd_visits_today` is the previous
total plus `rate * elapsed`, with `elapsed` the whole minutes since the
previous timestamp floored at 1, and `rate` a single per-cycle draw from
the band picked by the hour of day (08-18 → 4..12, 18-22 → 2..6,
otherwise 0..2). -/
theorem c7_continuing_opd_rate (p : Snapshot) (t now : DateTime) (hist : List ℤ) (d : Draws)
    (hts : p.timestamp = fmtTimestamp t) (hvt : t.Valid) (hvn : now.Valid)
    (hdate : dateOf t = dateOf now) :
    ∃ s h2 rate, generate_snapshot (some p) now hist d = some (s, h2) ∧
      s.hospital_metrics.opd_visits_today =
        p.hospital_metrics.opd_visits_today +
          rate * max 1 ((toSeconds now - toSeconds t).tdiv 60) ∧
      ((8 ≤ now.hour ∧ now.hour ≤ 18) → 4 ≤ rate ∧ rate ≤ 12) ∧
      (¬(8 ≤ now.hour ∧ now.hour ≤ 18) → (18 ≤ now.hour ∧ now.hour ≤ 22) →
        2 ≤ rate ∧ rate ≤ 6) ∧
      (¬(8 ≤ now.hour ∧ now.hour ≤ 18) → ¬(18 ≤ now.hour ∧ now.hour ≤ 22) →
        0 ≤ rate ∧ rate ≤ 2) := by
  refine ⟨(continueBody p t now hist d p.resources_and_supplies).1,
    (continueBody p t now hist d p.resources_and_supplies).2,
    (if 8 ≤ now.hour ∧ now.hour ≤ 18 then randint 4 12 d.rate
     else if 18 ≤ now.hour ∧ now.hour ≤ 22 then randint 2 6 d.rate
     else randint 0 2 d.rate),
    generate_continuing p t now hist d hts hvt hvn hdate, rfl, ?_, ?_, ?_⟩
  · intro h
    rw [if_pos h]
    exact ⟨randint_ge 4 12 d.rate (by norm_num), randint_le 4 12 d.rate (by norm_num)⟩
  · intro h1 h2
    rw [if_neg h1, if_pos h2]
    exact ⟨randint_ge 2 6 d.rate (by norm_num), randint_le 2 6 d.rate (by norm_num)⟩
  · intro h1 h2
    rw [if_neg h1, if_neg h2]
    exact ⟨randint_ge 0 2 d.rate (by norm_num), randint_le 0 2 d.rate (by norm_num)⟩

theorem c7_continuing_opd_rate_witness :
    ∃ s h2 rate,
      generate_snapshot (some (snapshotAt tMar5a)) tMar5b [] zeroDraws = some (s, h2) ∧
      s.hospital_metrics.opd_visits_today =
        (snapshotAt tMar5a).hospital_metrics.opd_visits_today +
          rate * max 1 ((toSeconds tMar5b - toSeconds tMar5a).tdiv 60) ∧
      ((8 ≤ tMar5b.hour ∧ tMar5b.hour ≤ 18) → 4 ≤ rate ∧ rate ≤ 12) ∧
      (¬(8 ≤ tMar5b.hour ∧ tMar5b.hour ≤ 18) → (18 ≤ tMar5b.hour ∧ tMar5b.hour ≤ 22) →
        2 ≤ rate ∧ rate ≤ 6) ∧
      (¬(8 ≤ tMar5b.hour ∧ tMar5b.hour ≤ 18) → ¬(18 ≤ tMar5b.hour ∧ tMar5b.hour ≤ 22) →
        0 ≤ rate ∧ rate ≤ 2) :=
  c7_continuing_opd_rate (snapshotAt tMar5a) tMar5a tMar5b [] zeroDraws rfl
    (by decide) (by decide) rfl

/-- C10: every generated snapshot's timestamp is the exact
`%Y-%m-%d %H:%M:%S` rendering of its instant; for such timestamps the
string-level day check agrees with local-calendar-date equality, and the
`strptime` of the continuing branch cannot fail. -/
theorem c10_timestamp_roundtrip (t now : DateTime) (prev : Option Snapshot) (hist : List ℤ)
    (d : Draws) (s : Snapshot) (h2 : List ℤ) (hvt : t.Valid) (hvn : now.Valid)
    (hrun : generate_snapshot prev now hist d = some (s, h2)) :
    s.timestamp = fmtTimestamp now ∧
    List.takeWhile (fun c => c != 32) (fmtTimestamp t) = fmtDate t ∧
    (same_day (some (fmtTimestamp t)) now = true ↔ dateOf t = dateOf now) ∧
    strptimeTs (fmtTimestamp t) = some t := by
  refine ⟨?_, takeWhile_fmtTimestamp t, same_day_fmt t now hvt hvn, strptime_fmt t hvt⟩
  obtain ⟨opd, cats, em, bed, icu, sup0, heq⟩ := generate_shape _ _ _ _ _ _ hrun
  have hs : s = (finish now hist d opd cats em bed icu sup0).1 := congrArg Prod.fst heq
  rw [hs, finish_fst_timestamp]

theorem c10_timestamp_roundtrip_witness :
    coldOutStamp.1.timestamp = fmtTimestamp tMar5a ∧
    List.takeWhile (fun c => c != 32) (fmtTimestamp tMar5b) = fmtDate tMar5b ∧
    (same_day (some (fmtTimestamp tMar5b)) tMar5a = true ↔ dateOf tMar5b = dateOf tMar5a) ∧
    strptimeTs (fmtTimestamp tMar5b) = some tMar5b :=
  c10_timestamp_roundtrip tMar5b tMar5a none [] zeroDraws coldOutStamp.1 coldOutStamp.2
    (by decide) (by decide) rfl

theorem adjust_stock_nonneg (current use_min use_max threshold refill : ℤ) (r : ℕ) :
    0 ≤ adjust_stock current use_min use_max threshold refill r := le_max_left 0 _

theorem compute_rolling_fst_nonneg (hist : List ℤ) (new : ℤ)
    (hh : ∀ x ∈ hist, 0 ≤ x) (hn : 0 ≤ new) : 0 ≤ (compute_rolling hist new).1 := by
  simp only [compute_rolling]
  apply List.sum_nonneg
  intro x hx
  have hmem : x ∈ hist ++ [new] := by
    by_cases hc : 7 < (hist ++ [new]).length
    · rw [if_pos hc] at hx
      exact List.drop_subset _ _ hx
    · rwa [if_neg hc] at hx
  rcases List.mem_append.1 hmem with h | h
  · exact hh x h
  · have : x = new := by simpa using h
    rw [this]; exact hn

theorem fresh_cats_nonneg (total : ℤ) (g : Cat → ℕ) (choice : ℕ) (h : 0 ≤ total) (c : Cat) :
    0 ≤ generate_opd_categories total none false g choice c := by
  have hbase : ∀ k : Cat, 0 ≤ (total * ratio100 k).tdiv 100 := fun k =>
    Int.tdiv_nonneg (mul_nonneg h (by cases k <;> norm_num [ratio100])) (by norm_num)
  simp only [generate_opd_categories]
  split
  · rename_i hdiff
    dsimp only
    by_cases hc : c = chooseCat choice
    · rw [if_pos hc]
      exact add_nonneg (hbase c) (le_of_lt hdiff)
    · rw [if_neg hc]
      exact hbase c
  · exact hbase c

theorem cont_cats_nonneg (total : ℤ) (prevCats : Cat → ℤ) (g : Cat → ℕ) (choice : ℕ)
    (hp : ∀ c, 0 ≤ prevCats c) (c : Cat) :
    0 ≤ generate_opd_categories total (some prevCats) true g choice c := by
  simp only [generate_opd_categories]
  have h1 : (0 : ℤ) ≤ max 1 (total.tdiv 100) := le_trans zero_le_one (le_max_left _ _)
  exact add_nonneg (hp c) (randint_ge 0 _ (g c) h1)

theorem finish_nonneg (now : DateTime) (hist : List ℤ) (d : Draws) (opd : ℤ)
    (cats : Cat → ℤ) (em bed icu : ℤ) (sup0 : Supplies)
    (hopd : 0 ≤ opd) (hcats : ∀ c, 0 ≤ cats c) (hem : 0 ≤ em)
    (hbed0 : 0 ≤ bed) (hbed1 : bed ≤ 100) (hicu0 : 0 ≤ icu) (hicu1 : icu ≤ 100)
    (hh : ∀ x ∈ hist, 0 ≤ x) :
    WellFormed (finish now hist d opd cats em bed icu sup0).1 := by
  constructor
  · rw [finish_metrics]
    unfold NonnegMetrics
    dsimp only
    refine ⟨compute_rolling_fst_nonneg hist opd hh hopd, hopd, hcats, hbed0, hicu0, hem,
      by omega, le_max_left 0 _, ?_, ?_, ?_, ?_, ?_, ?_⟩
    · exact Int.tdiv_nonneg
        (mul_nonneg hbed0 (le_trans (by norm_num) (randint_ge 10 25 d.triage (by norm_num))))
        (by norm_num)
    · exact add_nonneg
        (Int.tdiv_nonneg
          (mul_nonneg hbed0 (le_trans (by norm_num) (randint_ge 10 25 d.triage (by norm_num))))
          (by norm_num))
        (le_trans (by norm_num) (randint_ge 10 20 d.erInc (by norm_num)))
    · exact Int.tdiv_nonneg
        (mul_nonneg hicu0
          (le_trans (by norm_num) (randint_ge 5 15 d.icuWaitDraw (by norm_num))))
        (by norm_num)
    · split
      · exact le_trans (by norm_num) (randint_ge 15 22 d.doctors (by norm_num))
      · exact le_trans (by norm_num) (randint_ge 8 14 d.doctors (by norm_num))
    · split
      · exact le_trans (by norm_num) (randint_ge 35 48 d.nurses (by norm_num))
      · exact le_trans (by norm_num) (randint_ge 18 30 d.nurses (by norm_num))
    · split
      · exact le_trans (by norm_num) (randint_ge 20 30 d.support (by norm_num))
      · exact le_trans (by norm_num) (randint_ge 10 20 d.support (by norm_num))
  · rw [finish_supplies]
    unfold NonnegSupplies
    dsimp only
    exact ⟨fun k => adjust_stock_nonneg _ _ _ _ _ _, adjust_stock_nonneg _ _ _ _ _ _,
      adjust_stock_nonneg _ _ _ _ _ _, adjust_stock_nonneg _ _ _ _ _ _,
      adjust_stock_nonneg _ _ _ _ _ _, adjust_stock_nonneg _ _ _ _ _ _,
      fun b => le_max_left 0 _⟩

theorem freshBody_wf (now : DateTime) (hist : List ℤ) (d : Draws) (sup0 : Supplies)
    (hh : ∀ x ∈ hist, 0 ≤ x) : WellFormed (freshBody now hist d sup0).1 := by
  rw [freshBody_eq]
  have hopd : (0 : ℤ) ≤ randint 5 30 d.freshOpd :=
    le_trans (by norm_num) (randint_ge 5 30 d.freshOpd (by norm_num))
  exact finish_nonneg now hist d _ _ _ _ _ sup0 hopd
    (fresh_cats_nonneg _ d.catGrow d.catChoice hopd)
    (fresh_cats_nonneg _ d.catGrow d.catChoice hopd Cat.emergency)
    (le_trans (by norm_num) (randint_ge 60 90 d.bedFresh (by norm_num)))
    (le_trans (randint_le 60 90 d.bedFresh (by norm_num)) (by norm_num))
    (le_trans (by norm_num) (randint_ge 70 95 d.icuFresh (by norm_num)))
    (le_trans (randint_le 70 95 d.icuFresh (by norm_num)) (by norm_num))
    hh

theorem continueBody_wf (le : Snapshot) (lt now : DateTime) (hist : List ℤ) (d : Draws)
    (sup0 : Supplies) (hwf : WellFormed le) (hh : ∀ x ∈ hist, 0 ≤ x) :
    WellFormed (continueBody le lt now hist d sup0).1 := by
  rw [continueBody_eq]
  obtain ⟨⟨hpast, hopd, hcats, hbed, hicu, hem, hrest⟩, hsup⟩ := hwf
  have hR : (0 : ℤ) ≤
      (if 8 ≤ now.hour ∧ now.hour ≤ 18 then randint 4 12 d.rate
       else if 18 ≤ now.hour ∧ now.hour ≤ 22 then randint 2 6 d.rate
       else randint 0 2 d.rate) := by
    split
    · exact le_trans (by norm_num) (randint_ge 4 12 d.rate (by norm_num))
    · split
      · exact le_trans (by norm_num) (randint_ge 2 6 d.rate (by norm_num))
      · exact randint_ge 0 2 d.rate (by norm_num)
  have hmin : (0 : ℤ) ≤ max 1 ((toSeconds now - toSeconds lt).tdiv 60) :=
    le_trans zero_le_one (le_max_left _ _)
  exact finish_nonneg now hist d _ _ _ _ _ sup0
    (add_nonneg hopd (mul_nonneg hR hmin))
    (cont_cats_nonneg _ _ d.catGrow d.catChoice hcats)
    (add_nonneg hem (randint_ge 0 4 d.emergInc (by norm_num)))
    (le_trans (by norm_num) (le_max_left 50 _))
    (max_le (by norm_num) (min_le_left 100 _))
    (le_trans (by norm_num) (le_max_left 60 _))
    (max_le (by norm_num) (min_le_left 100 _))
    hh

theorem continueBody_occ_bounds (le : Snapshot) (lt now : DateTime) (hist : List ℤ)
    (d : Draws) (sup0 : Supplies) :
    50 ≤ (continueBody le lt now hist d sup0).1.hospital_metrics.current_bed_occupancy ∧
    (continueBody le lt now hist d sup0).1.hospital_metrics.current_bed_occupancy ≤ 100 ∧
    60 ≤ (continueBody le lt now hist d sup0).1.hospital_metrics.icu_occupancy ∧
    (continueBody le lt now hist d sup0).1.hospital_metrics.icu_occupancy ≤ 100 := by
  rw [continueBody_eq, finish_metrics]
  dsimp only
  exact ⟨le_max_left 50 _, max_le (by norm_num) (min_le_left 100 _),
    le_max_left 60 _, max_le (by norm_num) (min_le_left 100 _)⟩

/-- C5: every numeric field of every snapshot the generator produces
(from a well-formed previous snapshot or none, with a non-negative
rolling history) is non-negative, and on a continuing cycle the
random-walk occupancies are clamped to [50, 100] (beds) and [60, 100]
(ICU), for every realization of the draws. -/
theorem c5_nonneg_and_occupancy (last_entry : Option Snapshot) (now : DateTime)
    (hist : List ℤ) (d : Draws) (s : Snapshot) (h2 : List ℤ)
    (hwf : ∀ p, last_entry = some p → WellFormed p)
    (hh : ∀ x ∈ hist, 0 ≤ x)
    (hrun : generate_snapshot last_entry now hist d = some (s, h2)) :
    WellFormed s ∧
    (∀ p, last_entry = some p → same_day (some p.timestamp) now = true →
      50 ≤ s.hospital_metrics.current_bed_occupancy ∧
      s.hospital_metrics.current_bed_occupancy ≤ 100 ∧
      60 ≤ s.hospital_metrics.icu_occupancy ∧
      s.hospital_metrics.icu_occupancy ≤ 100) := by
  cases last_entry with
  | none =>
    rw [generate_none] at hrun
    have hse := Option.some.inj hrun
    constructor
    · rw [show s = (freshBody now hist d defaultSupplies).1 from (congrArg Prod.fst hse).symm]
      exact freshBody_wf now hist d defaultSupplies hh
    · intro p hp
      exact absurd hp (by simp)
  | some le =>
    have hwfle := hwf le rfl
    by_cases hsd : same_day (some le.timestamp) now = true
    · cases hp : strptimeTs le.timestamp with
      | none =>
        have hnone : generate_snapshot (some le) now hist d = none := by
          simp [generate_snapshot, hsd, hp]
        rw [hnone] at hrun
        exact absurd hrun (by simp)
      | some lt =>
        rw [generate_some_same le lt now hist d hsd hp] at hrun
        have hse := Option.some.inj hrun
        have hs : s = (continueBody le lt now hist d le.resources_and_supplies).1 :=
          (congrArg Prod.fst hse).symm
        constructor
        · rw [hs]
          exact continueBody_wf le lt now hist d _ hwfle hh
        · intro p hp2 hsd2
          rw [hs]
          exact continueBody_occ_bounds le lt now hist d _
    · rw [Bool.not_eq_true] at hsd
      rw [generate_some_not_same le now hist d hsd] at hrun
      have hse := Option.some.inj hrun
      have hs : s = (freshBody now hist d le.resources_and_supplies).1 :=
        (congrArg Prod.fst hse).symm
      constructor
      · rw [hs]
        exact freshBody_wf now hist d _ hh
      · intro p hp2 hsd2
        cases Option.some.inj hp2
        simp [hsd] at hsd2

theorem c5_nonneg_and_occupancy_witness :
    WellFormed coldOutNonneg.1 ∧
    (∀ p, (none : Option Snapshot) = some p →
      same_day (some p.timestamp) tMar5a = true →
      50 ≤ coldOutNonneg.1.hospital_metrics.current_bed_occupancy ∧
      coldOutNonneg.1.hospital_metrics.current_bed_occupancy ≤ 100 ∧
      60 ≤ coldOutNonneg.1.hospital_metrics.icu_occupancy ∧
      coldOutNonneg.1.hospital_metrics.icu_occupancy ≤ 100) :=
  c5_nonneg_and_occupancy none tMar5a [] zeroDraws coldOutNonneg.1 coldOutNonneg.2
    (fun p hp => absurd hp (by simp)) (fun x hx => absurd hx (by simp)) rfl

/-- C9: the hospital-state query never raises: a missing dataset file and
an empty dataset both yield a structured error result, and otherwise the
result is a success carrying the metrics and supplies of the last
persisted snapshot. -/
theorem c9_hospital_state_query (fs : Option (List Snapshot)) :
    (fs = none → ∃ msg, getHospitalStateRun fs = RunResult.error msg) ∧
    (fs = some [] → ∃ msg, getHospitalStateRun fs = RunResult.error msg) ∧
    (∀ l x, fs = some (l ++ [x]) →
      getHospitalStateRun fs =
        RunResult.success x.hospital_metrics x.resources_and_supplies) := by
  refine ⟨?_, ?_, ?_⟩
  · rintro rfl
    exact ⟨_, rfl⟩
  · rintro rfl
    exact ⟨_, rfl⟩
  · rintro l x rfl
    cases l with
    | nil => rfl
    | cons a l2 =>
      simp only [List.cons_append, getHospitalStateRun, read_latest_record]
      simp [List.getLast_cons]

theorem c9_hospital_state_query_witness :
    getHospitalStateRun (some [snapshotAt tMar5a]) =
      RunResult.success (snapshotAt tMar5a).hospital_metrics
        (snapshotAt tMar5a).resources_and_supplies :=
  (c9_hospital_state_query (some [snapshotAt tMar5a])).2.2 [] (snapshotAt tMar5a) rfl

theorem generate_out_timestamp (last_entry : Option Snapshot) (now : DateTime)
    (hist : List ℤ) (d : Draws) (s : Snapshot) (h2 : List ℤ)
    (hrun : generate_snapshot last_entry now hist d = some (s, h2)) :
    s.timestamp = fmtTimestamp now := by
  obtain ⟨opd, cats, em, bed, icu, sup0, heq⟩ := generate_shape _ _ _ _ _ _ hrun
  have hs : s = (finish now hist d opd cats em bed icu sup0).1 := congrArg Prod.fst heq
  rw [hs, finish_fst_timestamp]

theorem compute_rolling_snd_eq (hist : List ℤ) (new : ℤ) :
    (compute_rolling hist new).2 = lastSeven (hist ++ [new]) := by
  simp only [compute_rolling, lastSeven]
  split
  · rfl
  · rename_i hc
    rw [Nat.sub_eq_zero_of_le (by omega), List.drop_zero]

theorem compute_rolling_fst_eq (hist : List ℤ) (new : ℤ) :
    (compute_rolling hist new).1 = (compute_rolling hist new).2.sum := rfl

theorem generate_rolling (last_entry : Option Snapshot) (now : DateTime)
    (hist : List ℤ) (d : Draws) (s : Snapshot) (h2 : List ℤ)
    (hrun : generate_snapshot last_entry now hist d = some (s, h2)) :
    h2 = lastSeven (hist ++ [s.hospital_metrics.opd_visits_today]) ∧
    s.hospital_metrics.past_7_day_opd_visits = h2.sum := by
  obtain ⟨opd, cats, em, bed, icu, sup0, heq⟩ := generate_shape _ _ _ _ _ _ hrun
  have hs : s = (finish now hist d opd cats em bed icu sup0).1 := congrArg Prod.fst heq
  have hh2 : h2 = (finish now hist d opd cats em bed icu sup0).2 := congrArg Prod.snd heq
  have hopd : s.hospital_metrics.opd_visits_today = opd := by rw [hs, finish_metrics]
  constructor
  · rw [hh2, finish_snd, hopd, compute_rolling_snd_eq]
  · rw [hs, finish_metrics, hh2, finish_snd]
    exact compute_rolling_fst_eq hist opd

theorem lastSeven_append (l : List ℤ) (x : ℤ) :
    lastSeven (lastSeven l ++ [x]) = lastSeven (l ++ [x]) := by
  unfold lastSeven
  by_cases h : l.length ≤ 7
  · rw [Nat.sub_eq_zero_of_le h, List.drop_zero]
  · push_neg at h
    have hA : (l.drop (l.length - 7)).length = 7 := by
      rw [List.length_drop]; omega
    have h1 : (l.drop (l.length - 7) ++ [x]).length - 7 = 1 := by
      rw [List.length_append, hA]
      rfl
    have h2 : (l ++ [x]).length - 7 = l.length - 6 := by
      rw [List.length_append]
      simp only [List.length_cons, List.length_nil]
      omega
    rw [h1, h2]
    rw [List.drop_append_of_le_length (by omega : 1 ≤ (l.drop (l.length - 7)).length)]
    rw [List.drop_append_of_le_length (by omega : l.length - 6 ≤ l.length)]
    rw [List.drop_drop]
    have h3 : l.length - 7 + 1 = l.length - 6 := by omega
    rw [h3]

theorem continueBody_mono (le : Snapshot) (lt now : DateTime) (hist : List ℤ) (d : Draws)
    (sup0 : Supplies) :
    le.hospital_metrics.opd_visits_today ≤
      (continueBody le lt now hist d sup0).1.hospital_metrics.opd_visits_today ∧
    le.hospital_metrics.emergency_intake_today ≤
      (continueBody le lt now hist d sup0).1.hospital_metrics.emergency_intake_today := by
  rw [continueBody_eq, finish_metrics]
  dsimp only
  constructor
  · have hR : (0 : ℤ) ≤
        (if 8 ≤ now.hour ∧ now.hour ≤ 18 then randint 4 12 d.rate
         else if 18 ≤ now.hour ∧ now.hour ≤ 22 then randint 2 6 d.rate
         else randint 0 2 d.rate) := by
      split
      · exact le_trans (by norm_num) (randint_ge 4 12 d.rate (by norm_num))
      · split
        · exact le_trans (by norm_num) (randint_ge 2 6 d.rate (by norm_num))
        · exact randint_ge 0 2 d.rate (by norm_num)
    have hmin : (0 : ℤ) ≤ max 1 ((toSeconds now - toSeconds lt).tdiv 60) :=
      le_trans zero_le_one (le_max_left _ _)
    exact le_add_of_nonneg_right (mul_nonneg hR hmin)
  · exact le_add_of_nonneg_right (randint_ge 0 4 d.emergInc (by norm_num))

theorem generate_step_mono (p : Snapshot) (t now : DateTime) (hist : List ℤ) (d : Draws)
    (s : Snapshot) (h2 : List ℤ)
    (hts : p.timestamp = fmtTimestamp t) (hvt : t.Valid) (hvn : now.Valid)
    (hdate : dateOf t = dateOf now)
    (hrun : generate_snapshot (some p) now hist d = some (s, h2)) :
    p.hospital_metrics.opd_visits_today ≤ s.hospital_metrics.opd_visits_today ∧
    p.hospital_metrics.emergency_intake_today ≤
      s.hospital_metrics.emergency_intake_today := by
  rw [generate_continuing p t now hist d hts hvt hvn hdate] at hrun
  have hs : s = (continueBody p t now hist d p.resources_and_supplies).1 :=
    (congrArg Prod.fst (Option.some.inj hrun)).symm
  rw [hs]
  exact continueBody_mono p t now hist d _

theorem chain_mono_aux (D : ℕ × ℕ × ℕ) :
    ∀ (steps : List (DateTime × Draws)) (prev : Option Snapshot) (hist : List ℤ)
      (out : List (Snapshot × List ℤ)),
      (∀ td ∈ steps, (td.1 : DateTime).Valid ∧ dateOf td.1 = D) →
      runChain prev hist steps = some out →
      List.Chain' (fun a b =>
        a.1.hospital_metrics.opd_visits_today ≤ b.1.hospital_metrics.opd_visits_today ∧
        a.1.hospital_metrics.emergency_intake_today ≤
          b.1.hospital_metrics.emergency_intake_today) out ∧
      (∀ e, out.head? = some e → ∀ t2 d2 rest, steps = (t2, d2) :: rest →
        e.1.timestamp = fmtTimestamp t2) := by
  intro steps
  induction steps with
  | nil =>
    intro prev hist out hval hrun
    simp only [runChain] at hrun
    obtain rfl : ([] : List (Snapshot × List ℤ)) = out := Option.some.inj hrun
    exact ⟨List.chain'_nil, fun e he => by simp at he⟩
  | cons hd rest ih =>
    obtain ⟨t2, d2⟩ := hd
    intro prev hist out hval hrun
    simp only [runChain] at hrun
    cases hg : generate_snapshot prev t2 hist d2 with
    | none =>
      rw [hg] at hrun
      simp at hrun
    | some sh =>
      obtain ⟨s, h2⟩ := sh
      rw [hg] at hrun
      dsimp only at hrun
      obtain ⟨tail, htail, rfl⟩ :
          ∃ tail, runChain (some s) h2 rest = some tail ∧ out = (s, h2) :: tail := by
        cases hrc : runChain (some s) h2 rest with
        | none => rw [hrc] at hrun; simp at hrun
        | some tail =>
          rw [hrc] at hrun
          simp only [Option.map_some', Option.some.injEq] at hrun
          exact ⟨tail, rfl, hrun.symm⟩
      have hts : s.timestamp = fmtTimestamp t2 := generate_out_timestamp _ _ _ _ _ _ hg
      obtain ⟨hchain_tail, hhead_tail⟩ :=
        ih (some s) h2 tail (fun td hm => hval td (by simp [hm])) htail
      constructor
      · rw [List.chain'_cons']
        refine ⟨?_, hchain_tail⟩
        intro b hb
        cases rest with
        | nil =>
          simp only [runChain] at htail
          obtain rfl : ([] : List (Snapshot × List ℤ)) = tail := Option.some.inj htail
          simp at hb
        | cons hd2 rest2 =>
          obtain ⟨t3, d3⟩ := hd2
          simp only [runChain] at htail
          cases hg2 : generate_snapshot (some s) t3 h2 d3 with
          | none => rw [hg2] at htail; simp at htail
          | some sh2 =>
            obtain ⟨s2, h3⟩ := sh2
            rw [hg2] at htail
            dsimp only at htail
            obtain ⟨tail2, htail2, rfl⟩ :
                ∃ tail2, runChain (some s2) h3 rest2 = some tail2 ∧
                  tail = (s2, h3) :: tail2 := by
              cases hrc2 : runChain (some s2) h3 rest2 with
              | none => rw [hrc2] at htail; simp at htail
              | some tail2 =>
                rw [hrc2] at htail
                simp only [Option.map_some', Option.some.injEq] at htail
                exact ⟨tail2, rfl, htail.symm⟩
            have hbeq : (s2, h3) = b := by simpa using hb
            subst hbeq
            have hv2 := hval (t2, d2) (by simp)
            have hv3 := hval (t3, d3) (by simp)
            exact generate_step_mono s t2 t3 h2 d3 s2 h3 hts hv2.1 hv3.1
              (by rw [hv2.2, hv3.2]) hg2
      · intro e he t4 d4 rest4 hsteps
        injection hsteps with hpair hrest
        injection hpair with hteq hdeq
        have heeq : e = (s, h2) := by
          simp only [List.head?_cons, Option.some.injEq] at he
          exact he.symm
        subst heeq
        rw [← hteq]
        exact hts

/-- C1: along any same-day sequence of generator calls, each call feeding
the previous call's snapshot forward, `opd_visits_today` and
`emergency_intake_today` are non-decreasing between consecutive
snapshots, for every realization of the draws. -/
theorem c1_monotone_within_day (D : ℕ × ℕ × ℕ) (steps : List (DateTime × Draws))
    (prev : Option Snapshot) (hist : List ℤ) (out : List (Snapshot × List ℤ))
    (hval : ∀ td ∈ steps, (td.1 : DateTime).Valid ∧ dateOf td.1 = D)
    (hrun : runChain prev hist steps = some out) :
    List.Chain' (fun a b =>
      a.1.hospital_metrics.opd_visits_today ≤ b.1.hospital_metrics.opd_visits_today ∧
      a.1.hospital_metrics.emergency_intake_today ≤
        b.1.hospital_metrics.emergency_intake_today) out :=
  (chain_mono_aux D steps prev hist out hval hrun).1

theorem c1_monotone_within_day_witness :
    List.Chain' (fun a b =>
      a.1.hospital_metrics.opd_visits_today ≤ b.1.hospital_metrics.opd_visits_today ∧
      a.1.hospital_metrics.emergency_intake_today ≤
        b.1.hospital_metrics.emergency_intake_today) chainOutMono :=
  c1_monotone_within_day (2025, 3, 5) twoCallSchedule none [] chainOutMono (by decide) rfl

theorem chain_rolling_aux :
    ∀ (steps : List (DateTime × Draws)) (prev : Option Snapshot) (P : List ℤ)
      (out : List (Snapshot × List ℤ)),
      runChain prev (lastSeven P) steps = some out →
      ∀ k, k < out.length →
        (out.getD k (dummySnapshot, [])).2 =
          lastSeven
            (P ++ (out.map (fun e => e.1.hospital_metrics.opd_visits_today)).take (k + 1)) ∧
        (out.getD k (dummySnapshot, [])).1.hospital_metrics.past_7_day_opd_visits =
          (out.getD k (dummySnapshot, [])).2.sum := by
  intro steps
  induction steps with
  | nil =>
    intro prev P out hrun k hk
    simp only [runChain] at hrun
    obtain rfl : ([] : List (Snapshot × List ℤ)) = out := Option.some.inj hrun
    simp at hk
  | cons hd rest ih =>
    obtain ⟨t2, d2⟩ := hd
    intro prev P out hrun k hk
    simp only [runChain] at hrun
    cases hg : generate_snapshot prev t2 (lastSeven P) d2 with
    | none => rw [hg] at hrun; simp at hrun
    | some sh =>
      obtain ⟨s, h2⟩ := sh
      rw [hg] at hrun
      dsimp only at hrun
      obtain ⟨tail, htail, rfl⟩ :
          ∃ tail, runChain (some s) h2 rest = some tail ∧ out = (s, h2) :: tail := by
        cases hrc : runChain (some s) h2 rest with
        | none => rw [hrc] at hrun; simp at hrun
        | some tail =>
          rw [hrc] at hrun
          simp only [Option.map_some', Option.some.injEq] at hrun
          exact ⟨tail, rfl, hrun.symm⟩
      obtain ⟨hh2, hpast⟩ := generate_rolling _ _ _ _ _ _ hg
      have hh2' : h2 = lastSeven (P ++ [s.hospital_metrics.opd_visits_today]) := by
        rw [hh2, lastSeven_append]
      cases k with
      | zero =>
        constructor
        · simp only [List.getD_cons_zero]
          rw [hh2']
          simp [List.take_succ_cons]
        · simp only [List.getD_cons_zero]
          exact hpast
      | succ k2 =>
        have hk2 : k2 < tail.length := by simpa using hk
        have hih := ih (some s) (P ++ [s.hospital_metrics.opd_visits_today]) tail
          (by rw [← hh2']; exact htail) k2 hk2
        simp only [List.getD_cons_succ]
        have halign :
            P ++ (((s, h2) :: tail).map
              (fun e => e.1.hospital_metrics.opd_visits_today)).take (k2 + 1 + 1) =
            (P ++ [s.hospital_metrics.opd_visits_today]) ++
              ((tail.map (fun e => e.1.hospital_metrics.opd_visits_today)).take (k2 + 1)) := by
          simp [List.take_succ_cons, List.append_assoc]
        rw [halign]
        exact hih

/-- C3: starting from an empty rolling history, the k-th produced
snapshot's `past_7_day_opd_visits` is the sum of the rolling history,
which is exactly the last `min(7, k)` OPD totals produced so far
(current one included), so the history never exceeds 7 entries; a cold
start yields a one-entry history summing to its own total. -/
theorem c3_rolling_history (steps : List (DateTime × Draws)) (prev : Option Snapshot)
    (out : List (Snapshot × List ℤ))
    (hrun : runChain prev [] steps = some out) :
    ∀ k, k < out.length →
      (out.getD k (dummySnapshot, [])).2 =
        lastSeven ((out.map (fun e => e.1.hospital_metrics.opd_visits_today)).take (k + 1)) ∧
      (out.getD k (dummySnapshot, [])).1.hospital_metrics.past_7_day_opd_visits =
        (out.getD k (dummySnapshot, [])).2.sum ∧
      (out.getD k (dummySnapshot, [])).2.length = min 7 (k + 1) := by
  intro k hk
  have hrun2 : runChain prev (lastSeven []) steps = some out := hrun
  obtain ⟨h1, h2p⟩ := chain_rolling_aux steps prev [] out hrun2 k hk
  rw [List.nil_append] at h1
  refine ⟨h1, h2p, ?_⟩
  rw [h1]
  unfold lastSeven
  rw [List.length_drop, List.length_take, List.length_map]
  omega

theorem c3_rolling_history_witness :
    (chainOutRolling.getD 0 (dummySnapshot, [])).2 =
      lastSeven
        ((chainOutRolling.map (fun e => e.1.hospital_metrics.opd_visits_today)).take (0 + 1)) ∧
    (chainOutRolling.getD 0 (dummySnapshot, [])).1.hospital_metrics.past_7_day_opd_visits =
      (chainOutRolling.getD 0 (dummySnapshot, [])).2.sum ∧
    (chainOutRolling.getD 0 (dummySnapshot, [])).2.length = min 7 (0 + 1) :=
  c3_rolling_history twoCallSchedule none chainOutRolling rfl 0 (by decide)
